import Mathlib

/-!
# Verification of the JanusCopy upstream-routing engine

Shallow embedding of the gateway proxy core (`Proxy`, `RouteRequest`,
`executeRequest`, `copyHeaders`, `GetServiceHealth`, `GetAllServiceStatus`)
together with the per-service circuit breaker it uses.

The circuit-breaker library (`gobreaker`) is an external dependency whose
sources are not part of this repository; the breaker state machine is
modelled from the specification's contract.  The `ReadyToTrip` predicate
installed by `NewProxy` *is* repository code and is embedded from it.

Go maps are modelled as association lists (each key occurs at most once);
Go's `http.Header` is an association list from key to list of values.
Transport (the single HTTP round trip performed by `p.client.Do`) is an
oracle `Nat → AttemptResult` giving the outcome of each attempt.
-/

namespace Gateway

/-! ## Maps and headers -/

/-- Lookup in a Go map modelled as an association list. -/
def mapLookup {α : Type} : List (String × α) → String → Option α
  | [], _ => none
  | (k', v) :: t, k => if k' = k then some v else mapLookup t k

/-- Go map assignment `m[k] = v`: replace the binding if present, else append. -/
def mapInsert {α : Type} : List (String × α) → String → α → List (String × α)
  | [], k, v => [(k, v)]
  | (k', v') :: t, k, v => if k' = k then (k, v) :: t else (k', v') :: mapInsert t k v

/-- The keys of a Go map modelled as an association list. -/
def keysOf {α : Type} (m : List (String × α)) : List String := m.map Prod.fst

/-- `http.Header`: map from header key to its list of values. -/
abbrev Header := List (String × List String)

/-- `http.Header.Add(k, v)`: append `v` to the values of `k` (create the entry
if absent).  The inbound headers come from Go's HTTP server and are already
in canonical form, so canonicalisation of `k` is the identity here. -/
def hAdd : Header → String → String → Header
  | [], k, v => [(k, [v])]
  | (k', vs) :: t, k, v =>
    if k' = k then (k', vs ++ [v]) :: t else (k', vs) :: hAdd t k v

/-- The list of values stored under key `k` (empty when the key is absent). -/
def hValues (h : Header) (k : String) : List String := (mapLookup h k).getD []

/-- `strings.ToLower` restricted to what the deny-list comparison needs:
lower-case every character (identical to `String.toLower`, written by
structural recursion over the character list so that it evaluates). -/
def lowerString (s : String) : String := ⟨s.data.map Char.toLower⟩

/-- The deny-list of `Proxy.copyHeaders` (source part_002 lines 175-181). -/
def skipHeaders : List String :=
  ["host", "connection", "content-length", "transfer-encoding", "upgrade"]

/-- `Proxy.copyHeaders` (source part_002 lines 173-192): for every entry of
`src` whose lowercased key is not on the deny-list, `dst.Add` each value. -/
def copyHeaders (src : Header) (dst : Header) : Header :=
  src.foldl
    (fun d p =>
      if skipHeaders.contains (lowerString p.1) then d
      else p.2.foldl (fun d' v => hAdd d' p.1 v) d)
    dst

/-! ## Configuration and URLs -/

/-- `config.ServiceConfig` (src/internal/config/config.go lines 43-48).
`MaxRetry` is a Go `int`, so it can be zero or negative. -/
structure ServiceConfig where
  Name : String
  URL : String
  Timeout : Nat
  MaxRetry : Int
  deriving DecidableEq, Repr

/-- The components of a parsed `net/url.URL` that `executeRequest` touches.
Stands for the result of `url.Parse(service.URL)`. -/
structure URLComponents where
  Scheme : String
  Host : String
  Path : String
  RawQuery : String
  deriving DecidableEq, Repr

/-- Target-URL construction of `executeRequest` (source part_002 lines
106-113): parse the base URL, then assign `targetURL.Path = req.URL.Path`
and `targetURL.RawQuery = req.URL.RawQuery`. -/
def buildTargetURL (base : URLComponents) (reqPath reqRawQuery : String) :
    URLComponents :=
  { base with Path := reqPath, RawQuery := reqRawQuery }

/-- The target URL as the specification's words describe it: the service's
base URL with the inbound path and query appended to it.  Used only to be
compared against `buildTargetURL`. -/
def specTargetURL (base : URLComponents) (reqPath reqRawQuery : String) :
    URLComponents :=
  { base with Path := base.Path ++ reqPath, RawQuery := reqRawQuery }

/-! ## Transport layer -/

/-- Transport-level failure of one `p.client.Do` round trip. -/
inductive TransportError where
  | timeout
  | connError
  | cancelled
  deriving DecidableEq, Repr

/-- A received upstream `*http.Response` (status, headers, body bytes). -/
structure HTTPResponse where
  statusCode : Nat
  headers : Header
  body : List Nat
  deriving DecidableEq, Repr

/-- Outcome of one `p.client.Do` call: a response (any status code), or a
transport error with `resp = nil`. -/
inductive AttemptResult where
  | ok (r : HTTPResponse)
  | fail (e : TransportError)
  deriving DecidableEq, Repr

/-- `ProxyResponse` (source part_002 lines 31-35). -/
structure ProxyResponse where
  StatusCode : Nat
  Headers : Header
  Body : List Nat
  deriving DecidableEq, Repr

/-- Result of `executeRequest` after the retry loop: a `ProxyResponse`, the
"all retry attempts failed" error wrapping the last transport error, or the
nil-pointer dereference of `resp.Body.Close()` when the loop left both
`resp` and `err` nil. -/
inductive ExecResult where
  | success (r : ProxyResponse)
  | allRetriesFailed (e : TransportError)
  | nilDeref
  deriving DecidableEq, Repr

/-- Inbound request fields the proxy core reads. -/
structure Request where
  Method : String
  Path : String
  RawQuery : String
  Headers : Header
  deriving Repr

/-! ## Retry loop -/

/-- The retry loop of `executeRequest` (source part_002 lines 131-147):

    for attempt := 0; attempt < maxRetry; attempt++ {
      resp, err = p.client.Do(proxyReq)
      if err == nil { break }
      if attempt < maxRetry-1 {
        time.Sleep(time.Duration((attempt+1)*100) * time.Millisecond)
      }
    }

Returns `(resp, err, sleeps, attemptsPerformed)` where `sleeps` lists the
inter-attempt sleep durations in milliseconds, in order.  The loop is
embedded structurally on `remaining`, the number of iterations left, i.e.
`maxRetry - attempt`; the loop guard `attempt < maxRetry` is `1 ≤ remaining`
and the sleep guard `attempt < maxRetry - 1` is `2 ≤ remaining`.  The
initial call uses `remaining = MaxRetry.toNat`, the iteration count of the
Go `int`-bounded loop (zero when `MaxRetry ≤ 0`). -/
def retryLoop (doCall : Nat → AttemptResult) :
    Nat → Nat → Option HTTPResponse × Option TransportError × List Nat × Nat
  | 0, attempt => (none, none, [], attempt)
  | remaining + 1, attempt =>
    match doCall attempt with
    | .ok r => (some r, none, [], attempt + 1)
    | .fail e =>
      if 1 ≤ remaining then
        let rest := retryLoop doCall remaining (attempt + 1)
        (rest.1, rest.2.1, (attempt + 1) * 100 :: rest.2.2.1, rest.2.2.2)
      else
        (none, some e, [], attempt + 1)

/-- Everything observable about one `executeRequest` call. -/
structure ExecTrace where
  targetURL : URLComponents
  outHeaders : Header
  result : ExecResult
  sleeps : List Nat
  attempts : Nat
  deriving Repr

/-- `Proxy.executeRequest` (source part_002 lines 104-171).  `base` is the
parsed `service.URL` (the string-parsing of `url.Parse` is not modelled;
its component result is passed in).  `doCall` is the transport oracle for
`p.client.Do`.  Reading the response body (`io.ReadAll`) is modelled as
returning the response's bytes. -/
def executeRequest (svc : ServiceConfig) (base : URLComponents) (req : Request)
    (doCall : Nat → AttemptResult) : ExecTrace :=
  let targetURL := buildTargetURL base req.Path req.RawQuery
  let outHeaders := copyHeaders req.Headers []
  let r := retryLoop doCall svc.MaxRetry.toNat 0
  match r.2.1, r.1 with
  | some e, _ => ⟨targetURL, outHeaders, .allRetriesFailed e, r.2.2.1, r.2.2.2⟩
  | none, some resp =>
    ⟨targetURL, outHeaders, .success ⟨resp.statusCode, resp.headers, resp.body⟩,
      r.2.2.1, r.2.2.2⟩
  | none, none => ⟨targetURL, outHeaders, .nilDeref, r.2.2.1, r.2.2.2⟩

/-! ## Attempt deadlines

`executeRequest` calls `context.WithTimeout(req.Context(), service.Timeout
seconds)` once, before the retry loop (source part_002 lines 125-128), and
every attempt's `p.client.Do` runs under that one context. -/

/-- The deadline (ms) installed by the single `context.WithTimeout` call at
time `t0`, with the service timeout in seconds. -/
def ctxDeadline (t0 timeoutSec : Nat) : Nat := t0 + timeoutSec * 1000

/-- The deadline under which attempt `i` runs in the source: the one
context deadline, identical for every attempt. -/
def attemptDeadline (t0 timeoutSec : Nat) (_i : Nat) : Nat :=
  ctxDeadline t0 timeoutSec

/-- A fresh per-attempt deadline as the specification's words describe it:
the attempt's own start time plus the service timeout.  Used only to be
compared against `attemptDeadline`. -/
def freshAttemptDeadline (attemptStartTime timeoutSec : Nat) : Nat :=
  attemptStartTime + timeoutSec * 1000

/-- Start time (ms) of attempt `i`, given each attempt's duration: attempt 0
starts at `t0`; between attempt `j` and `j+1` the loop sleeps
`(j+1)*100` ms. -/
def attemptStart (t0 : Nat) (dur : Nat → Nat) (i : Nat) : Nat :=
  t0 + ((List.range i).map (fun j => dur j + (j + 1) * 100)).sum

/-! ## Circuit breaker -/

/-- Breaker states (gobreaker `StateClosed`, `StateOpen`, `StateHalfOpen`). -/
inductive CBState where
  | closed
  | opened
  | halfOpen
  deriving DecidableEq, Repr

/-- The counting window of one breaker: total requests and failures within
the current interval. -/
structure Counts where
  requests : Nat
  failures : Nat
  deriving DecidableEq, Repr

/-- The `ReadyToTrip` closure installed by `NewProxy` (source part_002 lines
63-66):

    failureRatio := float64(counts.TotalFailures) / float64(counts.Requests)
    return counts.Requests >= 3 && failureRatio >= 0.6

The `float64` comparison is embedded as the exact rational comparison
`failures / requests ≥ 3/5`: for every pair of `uint32` counts the two
agree, because the closest fraction with denominator ≤ 2^32 to 3/5 other
than 3/5 itself is farther from it than the rounding error of the float
literal `0.6` and of one correctly-rounded division. -/
def readyToTrip (c : Counts) : Bool :=
  decide (3 ≤ c.requests) &&
    decide ((3 : ℚ) / 5 ≤ (c.failures : ℚ) / (c.requests : ℚ))

/-- One per-service circuit breaker. -/
structure Breaker where
  state : CBState
  counts : Counts
  deriving DecidableEq, Repr

/-- Recording one outcome in the counting window: each call counts as a
request; a failure also increments the failure counter. -/
def recordCounts (c : Counts) (success : Bool) : Counts :=
  if success then ⟨c.requests + 1, c.failures⟩
  else ⟨c.requests + 1, c.failures + 1⟩

/-- Modelled from the spec: recording one outcome against the breaker's
window and performing the state-transition check (the gobreaker library is
not part of this repository's sources).  While Closed, counters are
incremented and the breaker trips to Open exactly when `ReadyToTrip` holds
of the updated window; in HalfOpen a successful probe closes the breaker
and a failed probe reopens it; counters are cleared on every state change. -/
def cbRecord (b : Breaker) (success : Bool) : Breaker :=
  let c : Counts := recordCounts b.counts success
  match b.state with
  | .closed => if readyToTrip c then ⟨.opened, ⟨0, 0⟩⟩ else ⟨.closed, c⟩
  | .halfOpen => if success then ⟨.closed, ⟨0, 0⟩⟩ else ⟨.opened, ⟨0, 0⟩⟩
  | .opened => b

/-- Gateway-level errors `RouteRequest` can produce. -/
inductive RouteError where
  | serviceNotFound (name : String)
  | circuitOpen
  | upstreamFailed (e : TransportError)
  | nilDereference
  deriving DecidableEq, Repr

/-- Whether an `ExecResult` is the success the breaker counts (the closure
returned a nil error). -/
def isExecSuccess : ExecResult → Bool
  | .success _ => true
  | _ => false

/-- Result of one `CircuitBreaker.Execute`: the returned value or error, the
breaker afterwards, and how many times the protected closure was invoked. -/
structure CBResult where
  result : Except RouteError ProxyResponse
  breaker : Breaker
  callsMade : Nat
  deriving Repr

/-- Modelled from the spec: `gobreaker.CircuitBreaker.Execute` (the
gobreaker library is not part of this repository's sources).  If the state
is Open it returns a "circuit open" failure without invoking the closure;
otherwise it invokes the closure once, records the outcome against the
window, performs the transition check, and returns the closure's outcome. -/
def cbExecute (b : Breaker) (call : Unit → ExecResult) : CBResult :=
  match b.state with
  | .opened => ⟨.error .circuitOpen, b, 0⟩
  | _ =>
    match call () with
    | .success pr => ⟨.ok pr, cbRecord b true, 1⟩
    | .allRetriesFailed e => ⟨.error (.upstreamFailed e), cbRecord b false, 1⟩
    | .nilDeref => ⟨.error .nilDereference, cbRecord b false, 1⟩

/-! ## The proxy -/

/-- `Proxy` (source part_002 lines 17-23): the service registry and the
per-service breakers.  The HTTP client and logger carry no routing state. -/
structure Proxy where
  services : List (String × ServiceConfig)
  circuitBreakers : List (String × Breaker)

/-- A freshly constructed gobreaker: Closed with zeroed counters. -/
def newBreaker : Breaker := ⟨.closed, ⟨0, 0⟩⟩

/-- One iteration of `NewProxy`'s initialisation loop (source part_002
lines 54-70): register the service and create its breaker. -/
def newProxyStep (p : Proxy) (svc : ServiceConfig) : Proxy :=
  ⟨mapInsert p.services svc.Name svc,
   mapInsert p.circuitBreakers svc.Name newBreaker⟩

/-- `NewProxy` (source part_002 lines 37-77): for each configured service,
insert it into the registry and create its breaker. -/
def NewProxy (services : List ServiceConfig) : Proxy :=
  services.foldl newProxyStep ⟨[], []⟩

/-- Everything observable about one `RouteRequest` call. -/
structure RouteResult where
  result : Except RouteError ProxyResponse
  proxy : Proxy
  callsMade : Nat

/-- `Proxy.RouteRequest` (source part_002 lines 80-102): look up the
service (`service not found` if absent), fetch its breaker (a missing
breaker is a nil pointer in Go, hence `nilDereference`), and run
`executeRequest` through the breaker's `Execute`.  `parse` stands for
`url.Parse` applied to the service's URL string. -/
def RouteRequest (p : Proxy) (parse : String → URLComponents) (req : Request)
    (doCall : Nat → AttemptResult) (serviceName : String) : RouteResult :=
  match mapLookup p.services serviceName with
  | none => ⟨.error (.serviceNotFound serviceName), p, 0⟩
  | some svc =>
    match mapLookup p.circuitBreakers serviceName with
    | none => ⟨.error .nilDereference, p, 0⟩
    | some cb =>
      let r := cbExecute cb
        (fun _ => (executeRequest svc (parse svc.URL) req doCall).result)
      ⟨r.result,
       { p with circuitBreakers := mapInsert p.circuitBreakers serviceName r.breaker },
       r.callsMade⟩

/-- gobreaker `State.String()`. -/
def stateString : CBState → String
  | .closed => "closed"
  | .opened => "open"
  | .halfOpen => "half-open"

/-- `Proxy.GetServiceHealth` (source part_002 lines 195-203): a pure read. -/
def GetServiceHealth (p : Proxy) (serviceName : String) : String :=
  match mapLookup p.circuitBreakers serviceName with
  | none => "unknown"
  | some cb => stateString cb.state

/-- `Proxy.GetAllServiceStatus` (source part_002 lines 206-212): a pure
read over the breaker map's keys. -/
def GetAllServiceStatus (p : Proxy) : List (String × String) :=
  (keysOf p.circuitBreakers).map (fun name => (name, GetServiceHealth p name))

/-- The inter-attempt sleeps (ms) the retry loop performs from attempt `a`
over `n` further failing attempts: `(a+1)*100, (a+2)*100, ...`. -/
def backoffList : Nat → Nat → List Nat
  | _, 0 => []
  | a, n + 1 => (a + 1) * 100 :: backoffList (a + 1) n

/-! ## Lemmas: maps -/

theorem mapLookup_insert {α : Type} (m : List (String × α)) (k k' : String)
    (v : α) :
    mapLookup (mapInsert m k v) k' = if k = k' then some v else mapLookup m k' := by
  induction m with
  | nil => simp [mapInsert, mapLookup]
  | cons p t ih =>
    obtain ⟨k₀, v₀⟩ := p
    by_cases h₀ : k₀ = k
    · subst h₀
      simp only [mapInsert, if_pos rfl, mapLookup]
      by_cases h₁ : k₀ = k'
      · simp [h₁]
      · simp [h₁, mapLookup]
    · simp only [mapInsert, if_neg h₀, mapLookup]
      by_cases h₁ : k₀ = k'
      · subst h₁
        have : ¬(k = k₀) := fun h => h₀ h.symm
        simp [this]
      · simp [h₁, ih]

theorem keysOf_cons {α : Type} (k₀ : String) (v₀ : α) (t : List (String × α)) :
    keysOf ((k₀, v₀) :: t) = k₀ :: keysOf t := rfl

theorem mapLookup_eq_none_iff {α : Type} (m : List (String × α)) (k : String) :
    mapLookup m k = none ↔ k ∉ keysOf m := by
  induction m with
  | nil => simp [mapLookup, keysOf]
  | cons p t ih =>
    obtain ⟨k₀, v₀⟩ := p
    by_cases h₀ : k₀ = k
    · subst h₀
      simp [mapLookup, keysOf]
    · simp only [mapLookup, if_neg h₀, keysOf_cons, List.mem_cons, ih]
      constructor
      · rintro hk (h | h)
        · exact h₀ h.symm
        · exact hk h
      · exact fun hk h => hk (Or.inr h)

theorem keysOf_mapInsert_of_mem {α : Type} (m : List (String × α))
    (k : String) (v w : α) (h : mapLookup m k = some w) :
    keysOf (mapInsert m k v) = keysOf m := by
  induction m with
  | nil => simp [mapLookup] at h
  | cons p t ih =>
    obtain ⟨k₀, v₀⟩ := p
    by_cases h₀ : k₀ = k
    · subst h₀
      simp [mapInsert, keysOf]
    · simp only [mapLookup, if_neg h₀] at h
      simp only [mapInsert, if_neg h₀, keysOf_cons, ih h]

/-! ## Lemmas: the retry loop -/

theorem backoffList_zero (a : Nat) : backoffList a 0 = [] := rfl

theorem backoffList_succ (a n : Nat) :
    backoffList a (n + 1) = (a + 1) * 100 :: backoffList (a + 1) n := rfl

theorem backoffList_eq_map :
    ∀ (n a : Nat), backoffList a n = (List.range n).map (fun j => (a + j + 1) * 100) := by
  intro n
  induction n with
  | zero => intro a; rfl
  | succ n ih =>
    intro a
    rw [backoffList_succ, ih (a + 1), List.range_succ_eq_map]
    simp only [List.map_cons, List.map_map, List.cons.injEq]
    refine ⟨trivial, ?_⟩
    apply List.map_congr_left
    intro j _
    simp only [Function.comp_apply, Nat.succ_eq_add_one]
    omega

theorem backoffList_from_zero (n : Nat) :
    backoffList 0 n = (List.range n).map (fun i => (i + 1) * 100) := by
  rw [backoffList_eq_map]
  apply List.map_congr_left
  intro j _
  omega

theorem retryLoop_all_fail (doCall : Nat → AttemptResult)
    (e : Nat → TransportError) :
    ∀ (rem a : Nat), 1 ≤ rem →
      (∀ i, a ≤ i → i < a + rem → doCall i = .fail (e i)) →
      retryLoop doCall rem a =
        (none, some (e (a + rem - 1)), backoffList a (rem - 1), a + rem) := by
  intro rem
  induction rem with
  | zero => intro a h1 _; exact absurd h1 (by omega)
  | succ r ih =>
    intro a _ hfail
    rw [retryLoop]
    rw [hfail a le_rfl (by omega)]
    dsimp only
    by_cases h₂ : 1 ≤ r
    · rw [if_pos h₂]
      have hrest := ih (a + 1) h₂ (fun i hi1 hi2 => hfail i (by omega) (by omega))
      rw [hrest]
      have h3 : a + 1 + r - 1 = a + (r + 1) - 1 := by omega
      have h4 : a + 1 + r = a + (r + 1) := by omega
      have h5 : r + 1 - 1 = (r - 1) + 1 := by omega
      rw [h3, h4, h5, backoffList_succ]
    · rw [if_neg h₂]
      have hr0 : r = 0 := by omega
      subst hr0
      rw [show (0 + 1 - 1 : Nat) = 0 from rfl, backoffList_zero]
      have h3 : e a = e (a + (0 + 1) - 1) := by rw [show a + (0 + 1) - 1 = a from by omega]
      have h4 : a + 1 = a + (0 + 1) := by omega
      rw [h3, h4]

theorem retryLoop_first_success (doCall : Nat → AttemptResult)
    (k : Nat) (r : HTTPResponse) :
    ∀ (rem a : Nat), a ≤ k → k < a + rem →
      (∀ i, a ≤ i → i < k → ∃ er, doCall i = .fail er) →
      doCall k = .ok r →
      retryLoop doCall rem a = (some r, none, backoffList a (k - a), k + 1) := by
  intro rem
  induction rem with
  | zero => intro a hak hkm _ _; exact absurd hkm (by omega)
  | succ rr ih =>
    intro a hak hkm hfail hk
    rw [retryLoop]
    rcases Nat.eq_or_lt_of_le hak with heq | hlt
    · subst heq
      rw [hk]
      dsimp only
      rw [Nat.sub_self, backoffList_zero]
    · obtain ⟨er, hf⟩ := hfail a le_rfl hlt
      rw [hf]
      dsimp only
      have h₂ : 1 ≤ rr := by omega
      rw [if_pos h₂]
      have hrest := ih (a + 1) (by omega) (by omega)
        (fun i hi1 hi2 => hfail i (by omega) hi2) hk
      rw [hrest]
      have hb : k - a = (k - (a + 1)) + 1 := by omega
      rw [hb, backoffList_succ]

/-! ## Lemmas: header copying -/

theorem hValues_hAdd (h : Header) (k v k' : String) :
    hValues (hAdd h k v) k' = hValues h k' ++ (if k' = k then [v] else []) := by
  induction h with
  | nil =>
    by_cases hkk : k' = k
    · subst hkk
      simp [hAdd, hValues, mapLookup]
    · have h2 : ¬(k = k') := fun h => hkk h.symm
      simp [hAdd, hValues, mapLookup, hkk, h2]
  | cons p t ih =>
    obtain ⟨k₀, vs₀⟩ := p
    by_cases h₀ : k₀ = k
    · subst h₀
      by_cases h₁ : k₀ = k'
      · subst h₁
        simp [hAdd, hValues, mapLookup]
      · have h2 : ¬(k' = k₀) := fun h => h₁ h.symm
        simp [hAdd, hValues, mapLookup, h₁, h2]
    · by_cases h₁ : k₀ = k'
      · subst h₁
        simp [hAdd, hValues, mapLookup, h₀]
      · simp only [hAdd, if_neg h₀, hValues, mapLookup, if_neg h₁]
        exact ih

theorem hValues_addAll (vs : List String) (k k' : String) :
    ∀ (h : Header),
      hValues (vs.foldl (fun d v => hAdd d k v) h) k' =
        hValues h k' ++ (if k' = k then vs else []) := by
  induction vs with
  | nil => intro h; simp
  | cons v vs ih =>
    intro h
    rw [List.foldl_cons, ih (hAdd h k v), hValues_hAdd]
    by_cases hkk : k' = k
    · simp [hkk]
    · simp [hkk]

theorem keysOf_hAdd (h : Header) (k v : String) (k' : String) :
    k' ∈ keysOf (hAdd h k v) → k' ∈ keysOf h ∨ k' = k := by
  induction h with
  | nil =>
    simp [hAdd, keysOf]
  | cons p t ih =>
    obtain ⟨k₀, vs₀⟩ := p
    by_cases h₀ : k₀ = k
    · subst h₀
      simp [hAdd, keysOf]
      tauto
    · simp only [hAdd, if_neg h₀, keysOf_cons, List.mem_cons]
      rintro (h | h)
      · exact Or.inl (Or.inl h)
      · rcases ih h with h' | h'
        · exact Or.inl (Or.inr h')
        · exact Or.inr h'

theorem keysOf_addAll (vs : List String) (k : String) (k' : String) :
    ∀ (h : Header),
      k' ∈ keysOf (vs.foldl (fun d v => hAdd d k v) h) → k' ∈ keysOf h ∨ k' = k := by
  induction vs with
  | nil => intro h hm; exact Or.inl hm
  | cons v vs ih =>
    intro h hm
    rw [List.foldl_cons] at hm
    rcases ih (hAdd h k v) hm with h' | h'
    · exact keysOf_hAdd h k v k' h'
    · exact Or.inr h'

theorem keysOf_copyHeaders (src : Header) (k : String) :
    ∀ (dst : Header),
      k ∈ keysOf (copyHeaders src dst) →
        k ∈ keysOf dst ∨
          (skipHeaders.contains (lowerString k) = false ∧ k ∈ keysOf src) := by
  induction src with
  | nil => intro dst hm; exact Or.inl hm
  | cons p t ih =>
    obtain ⟨k₀, vs₀⟩ := p
    intro dst hm
    rw [copyHeaders, List.foldl_cons] at hm
    by_cases hskip : skipHeaders.contains (lowerString k₀)
    · rw [if_pos hskip] at hm
      rcases ih dst hm with h' | ⟨hns, hmem⟩
      · exact Or.inl h'
      · exact Or.inr ⟨hns, List.mem_cons_of_mem _ hmem⟩
    · rw [if_neg hskip] at hm
      rcases ih _ hm with h' | ⟨hns, hmem⟩
      · rcases keysOf_addAll vs₀ k₀ k dst h' with h'' | h''
        · exact Or.inl h''
        · subst h''
          exact Or.inr ⟨Bool.eq_false_iff.mpr hskip, List.mem_cons_self _ _⟩
      · exact Or.inr ⟨hns, List.mem_cons_of_mem _ hmem⟩

theorem hValues_eq_nil_of_not_mem (h : Header) (k : String)
    (hk : k ∉ keysOf h) : hValues h k = [] := by
  have := (mapLookup_eq_none_iff h k).mpr hk
  simp [hValues, this]

theorem hValues_copyHeaders (src : Header) (k : String)
    (hnd : (keysOf src).Nodup) :
    ∀ (dst : Header),
      hValues (copyHeaders src dst) k =
        hValues dst k ++
          (if skipHeaders.contains (lowerString k) then [] else hValues src k) := by
  induction src with
  | nil =>
    intro dst
    simp [copyHeaders, hValues, mapLookup]
  | cons p t ih =>
    obtain ⟨k₀, vs₀⟩ := p
    rw [keysOf_cons, List.nodup_cons] at hnd
    intro dst
    rw [copyHeaders, List.foldl_cons]
    by_cases hskip : skipHeaders.contains (lowerString k₀)
    · rw [if_pos hskip]
      rw [show (t.foldl (fun d p =>
          if skipHeaders.contains (lowerString p.1) then d
          else p.2.foldl (fun d' v => hAdd d' p.1 v) d) dst) = copyHeaders t dst
        from rfl]
      rw [ih hnd.2 dst]
      by_cases hkk : k = k₀
      · subst hkk
        rw [if_pos hskip, if_pos hskip]
      · have h2 : ¬(k₀ = k) := fun h => hkk h.symm
        have : hValues ((k₀, vs₀) :: t) k = hValues t k := by
          simp [hValues, mapLookup, h2]
        rw [this]
    · rw [if_neg hskip]
      rw [show (t.foldl (fun d p =>
          if skipHeaders.contains (lowerString p.1) then d
          else p.2.foldl (fun d' v => hAdd d' p.1 v) d)
            (vs₀.foldl (fun d' v => hAdd d' k₀ v) dst)) =
          copyHeaders t (vs₀.foldl (fun d' v => hAdd d' k₀ v) dst) from rfl]
      rw [ih hnd.2 _, hValues_addAll]
      by_cases hkk : k = k₀
      · subst hkk
        rw [if_pos rfl, if_neg hskip, if_neg hskip]
        have hnt : hValues t k = [] :=
          hValues_eq_nil_of_not_mem t k hnd.1
        have hsrc : hValues ((k, vs₀) :: t) k = vs₀ := by
          simp [hValues, mapLookup]
        rw [hsrc, hnt, List.append_nil]
      · rw [if_neg hkk]
        have h2 : ¬(k₀ = k) := fun h => hkk h.symm
        have hsrc : hValues ((k₀, vs₀) :: t) k = hValues t k := by
          simp [hValues, mapLookup, h2]
        rw [hsrc, List.append_nil]

theorem retryLoop_not_both_none (doCall : Nat → AttemptResult) :
    ∀ (rem a : Nat), 1 ≤ rem →
      ¬((retryLoop doCall rem a).1 = none ∧
        (retryLoop doCall rem a).2.1 = none) := by
  intro rem
  induction rem with
  | zero => intro a h1; exact absurd h1 (by omega)
  | succ r ih =>
    intro a _
    rw [retryLoop]
    cases hc : doCall a with
    | ok resp => simp
    | fail e =>
      dsimp only
      by_cases h₂ : 1 ≤ r
      · rw [if_pos h₂]
        have := ih (a + 1) h₂
        simpa using this
      · rw [if_neg h₂]
        simp

/-! ## Lemmas: executeRequest -/

theorem executeRequest_all_fail (svc : ServiceConfig) (base : URLComponents)
    (req : Request) (e : Nat → TransportError) (N : Nat)
    (hN : svc.MaxRetry = (N : Int)) (h1 : 1 ≤ N) :
    executeRequest svc base req (fun i => .fail (e i)) =
      ⟨buildTargetURL base req.Path req.RawQuery, copyHeaders req.Headers [],
       .allRetriesFailed (e (N - 1)), backoffList 0 (N - 1), N⟩ := by
  have ht : svc.MaxRetry.toNat = N := by omega
  have hloop := retryLoop_all_fail (fun i => .fail (e i)) e N 0 h1
    (fun i _ _ => rfl)
  rw [executeRequest, ht, hloop]
  dsimp only
  rw [show (0 + N - 1 : Nat) = N - 1 from by omega, show (0 + N : Nat) = N from by omega]

theorem executeRequest_first_success (svc : ServiceConfig)
    (base : URLComponents) (req : Request) (doCall : Nat → AttemptResult)
    (k : Nat) (r : HTTPResponse)
    (hk : (k : Int) < svc.MaxRetry)
    (hfail : ∀ i, i < k → ∃ er, doCall i = .fail er)
    (hok : doCall k = .ok r) :
    executeRequest svc base req doCall =
      ⟨buildTargetURL base req.Path req.RawQuery, copyHeaders req.Headers [],
       .success ⟨r.statusCode, r.headers, r.body⟩, backoffList 0 k, k + 1⟩ := by
  have hk2 : k < svc.MaxRetry.toNat := by omega
  have hloop := retryLoop_first_success doCall k r svc.MaxRetry.toNat 0
    (by omega) (by omega) (fun i _ hik => hfail i hik) hok
  rw [executeRequest, hloop]
  dsimp only
  rw [Nat.sub_zero]

theorem executeRequest_not_nilDeref (svc : ServiceConfig)
    (base : URLComponents) (req : Request) (doCall : Nat → AttemptResult)
    (hmr : 1 ≤ svc.MaxRetry) :
    (executeRequest svc base req doCall).result ≠ .nilDeref := by
  have h1 : 1 ≤ svc.MaxRetry.toNat := by omega
  have hnn := retryLoop_not_both_none doCall svc.MaxRetry.toNat 0 h1
  rw [executeRequest]
  rcases hr : retryLoop doCall svc.MaxRetry.toNat 0 with ⟨resp, err, sleeps, n⟩
  rw [hr] at hnn
  rcases err with _ | e
  · rcases resp with _ | rr
    · exact absurd ⟨rfl, rfl⟩ hnn
    · dsimp only
      intro hcontra
      exact ExecResult.noConfusion hcontra
  · dsimp only
    intro hcontra
    exact ExecResult.noConfusion hcontra

/-! ## Lemmas: circuit breaker -/

theorem readyToTrip_iff (c : Counts) :
    readyToTrip c = true ↔
      (3 ≤ c.requests ∧ (3 : ℚ) / 5 ≤ (c.failures : ℚ) / (c.requests : ℚ)) := by
  simp [readyToTrip]

theorem cbExecute_not_opened (b : Breaker) (call : Unit → ExecResult)
    (hb : b.state ≠ .opened) :
    (cbExecute b call).callsMade = 1 ∧
    (cbExecute b call).breaker = cbRecord b (isExecSuccess (call ())) := by
  cases hst : b.state with
  | opened => exact absurd hst hb
  | closed =>
    rw [cbExecute, hst]
    rcases hc : call () with pr | er | _ <;>
      simp [hc, isExecSuccess, cbRecord, hst]
  | halfOpen =>
    rw [cbExecute, hst]
    rcases hc : call () with pr | er | _ <;>
      simp [hc, isExecSuccess, cbRecord, hst]

theorem cbExecute_result_of_success (b : Breaker) (call : Unit → ExecResult)
    (pr : ProxyResponse) (hb : b.state ≠ .opened) (hc : call () = .success pr) :
    (cbExecute b call).result = .ok pr := by
  cases hst : b.state with
  | opened => exact absurd hst hb
  | closed =>
    rw [cbExecute, hst]
    dsimp only
    rw [hc]
  | halfOpen =>
    rw [cbExecute, hst]
    dsimp only
    rw [hc]

/-! ## Lemmas: proxy construction -/

theorem newProxyFold_lookup_isSome (ss : List ServiceConfig) :
    ∀ (p : Proxy),
      (∀ k, (mapLookup p.services k).isSome =
        (mapLookup p.circuitBreakers k).isSome) →
      ∀ k, (mapLookup (ss.foldl newProxyStep p).services k).isSome =
        (mapLookup (ss.foldl newProxyStep p).circuitBreakers k).isSome := by
  induction ss with
  | nil => intro p hp k; exact hp k
  | cons svc t ih =>
    intro p hp k
    rw [List.foldl_cons]
    apply ih
    intro k'
    rw [newProxyStep]
    dsimp only
    rw [mapLookup_insert, mapLookup_insert]
    by_cases hk : svc.Name = k'
    · rw [if_pos hk, if_pos hk]
      rfl
    · rw [if_neg hk, if_neg hk]
      exact hp k'

/-! ## Claims -/

/-- C1: for every configured service, if its circuit breaker is Open then
`RouteRequest` returns a failure without ever invoking the upstream
executor closure; when the breaker is not Open the closure is invoked
exactly once and its outcome is recorded against the breaker's window
(visible in the breaker map) before `RouteRequest` returns. -/
theorem C1_breaker_gates_routeRequest
    (p : Proxy) (parse : String → URLComponents) (req : Request)
    (doCall : Nat → AttemptResult) (name : String) (svc : ServiceConfig)
    (cb : Breaker)
    (hs : mapLookup p.services name = some svc)
    (hb : mapLookup p.circuitBreakers name = some cb) :
    (cb.state = .opened →
      (RouteRequest p parse req doCall name).result = .error .circuitOpen ∧
      (RouteRequest p parse req doCall name).callsMade = 0) ∧
    (cb.state ≠ .opened →
      (RouteRequest p parse req doCall name).callsMade = 1 ∧
      mapLookup (RouteRequest p parse req doCall name).proxy.circuitBreakers
          name =
        some (cbRecord cb (isExecSuccess
          (executeRequest svc (parse svc.URL) req doCall).result))) := by
  have hroute : RouteRequest p parse req doCall name =
      let r := cbExecute cb
        (fun _ => (executeRequest svc (parse svc.URL) req doCall).result)
      ⟨r.result,
       { p with circuitBreakers := mapInsert p.circuitBreakers name r.breaker },
       r.callsMade⟩ := by
    rw [RouteRequest, hs, hb]
  constructor
  · intro hopen
    rw [hroute]
    dsimp only
    rw [cbExecute, hopen]
    exact ⟨rfl, rfl⟩
  · intro hnot
    obtain ⟨hc1, hc2⟩ := cbExecute_not_opened cb
      (fun _ => (executeRequest svc (parse svc.URL) req doCall).result) hnot
    rw [hroute]
    dsimp only
    refine ⟨hc1, ?_⟩
    rw [mapLookup_insert, if_pos rfl, hc2]

/-- C1 witness: a concrete proxy whose breaker for service `"a"` is Open
short-circuits, and the same proxy with a Closed breaker invokes the
closure once and records the outcome. -/
theorem C1_witness :
    ((RouteRequest
        ⟨[("a", ⟨"a", "http://u", 1, 1⟩)], [("a", ⟨.opened, ⟨0, 0⟩⟩)]⟩
        (fun _ => ⟨"http", "u", "", ""⟩) ⟨"GET", "/", "", []⟩
        (fun _ => .fail .connError) "a").result = .error .circuitOpen ∧
      (RouteRequest
        ⟨[("a", ⟨"a", "http://u", 1, 1⟩)], [("a", ⟨.opened, ⟨0, 0⟩⟩)]⟩
        (fun _ => ⟨"http", "u", "", ""⟩) ⟨"GET", "/", "", []⟩
        (fun _ => .fail .connError) "a").callsMade = 0) ∧
    ((RouteRequest
        ⟨[("a", ⟨"a", "http://u", 1, 1⟩)], [("a", ⟨.closed, ⟨0, 0⟩⟩)]⟩
        (fun _ => ⟨"http", "u", "", ""⟩) ⟨"GET", "/", "", []⟩
        (fun _ => .fail .connError) "a").callsMade = 1 ∧
      mapLookup (RouteRequest
        ⟨[("a", ⟨"a", "http://u", 1, 1⟩)], [("a", ⟨.closed, ⟨0, 0⟩⟩)]⟩
        (fun _ => ⟨"http", "u", "", ""⟩) ⟨"GET", "/", "", []⟩
        (fun _ => .fail .connError) "a").proxy.circuitBreakers "a" =
        some (cbRecord ⟨.closed, ⟨0, 0⟩⟩ (isExecSuccess
          (executeRequest ⟨"a", "http://u", 1, 1⟩ ⟨"http", "u", "", ""⟩
            ⟨"GET", "/", "", []⟩ (fun _ => .fail .connError)).result))) :=
  ⟨(C1_breaker_gates_routeRequest _ _ _ _ "a" ⟨"a", "http://u", 1, 1⟩
      ⟨.opened, ⟨0, 0⟩⟩ (by decide) (by decide)).1 rfl,
   (C1_breaker_gates_routeRequest _ _ _ _ "a" ⟨"a", "http://u", 1, 1⟩
      ⟨.closed, ⟨0, 0⟩⟩ (by decide) (by decide)).2 (by decide)⟩

/-- C2: a Closed breaker transitions to Open on recording an outcome
exactly when the updated window has at least 3 requests and a failure
ratio of at least 3/5 (the exact value of the source's float comparison
against 0.6); in particular a window of 3 requests with 2 failures trips
the breaker while 3 requests with 1 failure leaves it Closed. -/
theorem C2_trip_condition :
    (∀ (b : Breaker) (success : Bool), b.state = .closed →
      ((cbRecord b success).state = .opened ↔
        (3 ≤ (recordCounts b.counts success).requests ∧
          (3 : ℚ) / 5 ≤ ((recordCounts b.counts success).failures : ℚ) /
            ((recordCounts b.counts success).requests : ℚ)))) ∧
    readyToTrip ⟨3, 2⟩ = true ∧
    readyToTrip ⟨3, 1⟩ = false ∧
    (cbRecord ⟨.closed, ⟨2, 1⟩⟩ false).state = .opened ∧
    (cbRecord ⟨.closed, ⟨2, 0⟩⟩ false).state = .closed := by
  have h32 : readyToTrip ⟨3, 2⟩ = true := by
    rw [readyToTrip_iff]
    norm_num
  have h31 : readyToTrip ⟨3, 1⟩ = false := by
    rw [Bool.eq_false_iff]
    intro h
    rw [readyToTrip_iff] at h
    norm_num at h
  refine ⟨?_, h32, h31, ?_, ?_⟩
  · intro b success hb
    obtain ⟨st, c⟩ := b
    dsimp only at hb
    subst hb
    rw [cbRecord]
    dsimp only
    by_cases hrt : readyToTrip (recordCounts c success) = true
    · rw [if_pos hrt]
      exact ⟨fun _ => (readyToTrip_iff _).mp hrt, fun _ => rfl⟩
    · rw [if_neg hrt]
      constructor
      · intro h
        exact CBState.noConfusion h
      · intro hcond
        exact absurd ((readyToTrip_iff _).mpr hcond) hrt
  · rw [cbRecord]
    dsimp only
    rw [show recordCounts ⟨2, 1⟩ false = ⟨3, 2⟩ from rfl, if_pos h32]
  · rw [cbRecord]
    dsimp only
    rw [show recordCounts ⟨2, 0⟩ false = ⟨3, 1⟩ from rfl,
      if_neg (by rw [h31]; exact Bool.false_ne_true)]

/-- C2 witness: the general trip criterion applied to a Closed breaker
with window 2/1 recording a failure. -/
theorem C2_witness :
    (cbRecord ⟨.closed, ⟨2, 1⟩⟩ false).state = .opened ↔
      (3 ≤ (recordCounts ⟨2, 1⟩ false).requests ∧
        (3 : ℚ) / 5 ≤ ((recordCounts ⟨2, 1⟩ false).failures : ℚ) /
          ((recordCounts ⟨2, 1⟩ false).requests : ℚ)) :=
  C2_trip_condition.1 ⟨.closed, ⟨2, 1⟩⟩ false rfl

/-- C3: with `MaxRetry = N ≥ 1` and every attempt failing at the transport
level, the executor performs exactly N attempts with the N-1 inter-attempt
sleeps 100ms, 200ms, ..., (N-1)*100ms and returns the all-retry-attempts-
failed error; when attempt k (k < N) is the first transport-level success,
exactly k sleeps 100ms, ..., k*100ms occur and the response is returned. -/
theorem C3_retry_attempts_and_backoff :
    (∀ (svc : ServiceConfig) (base : URLComponents) (req : Request)
        (e : Nat → TransportError) (N : Nat),
      svc.MaxRetry = (N : Int) → 1 ≤ N →
      executeRequest svc base req (fun i => .fail (e i)) =
        ⟨buildTargetURL base req.Path req.RawQuery, copyHeaders req.Headers [],
         .allRetriesFailed (e (N - 1)),
         (List.range (N - 1)).map (fun i => (i + 1) * 100), N⟩) ∧
    (∀ (svc : ServiceConfig) (base : URLComponents) (req : Request)
        (doCall : Nat → AttemptResult) (k : Nat) (r : HTTPResponse),
      (k : Int) < svc.MaxRetry →
      (∀ i, i < k → ∃ er, doCall i = .fail er) →
      doCall k = .ok r →
      executeRequest svc base req doCall =
        ⟨buildTargetURL base req.Path req.RawQuery, copyHeaders req.Headers [],
         .success ⟨r.statusCode, r.headers, r.body⟩,
         (List.range k).map (fun i => (i + 1) * 100), k + 1⟩) := by
  constructor
  · intro svc base req e N hN h1
    rw [executeRequest_all_fail svc base req e N hN h1, backoffList_from_zero]
  · intro svc base req doCall k r hk hfail hok
    rw [executeRequest_first_success svc base req doCall k r hk hfail hok,
      backoffList_from_zero]

/-- C3 witness: an always-failing transport with `MaxRetry = 3` performs 3
attempts and sleeps 100ms then 200ms; a transport that fails twice then
succeeds performs 3 attempts and the same 2 sleeps, returning the
response. -/
theorem C3_witness :
    (executeRequest ⟨"orders", "http://o", 1, 3⟩ ⟨"http", "o", "/", ""⟩
        ⟨"GET", "/x", "", []⟩ (fun i => .fail ((fun _ => .connError) i)) =
      ⟨buildTargetURL ⟨"http", "o", "/", ""⟩ "/x" "", copyHeaders [] [],
       .allRetriesFailed .connError,
       (List.range 2).map (fun i => (i + 1) * 100), 3⟩) ∧
    (executeRequest ⟨"orders", "http://o", 1, 3⟩ ⟨"http", "o", "/", ""⟩
        ⟨"GET", "/x", "", []⟩
        (fun i => if i < 2 then .fail .connError else .ok ⟨200, [], [7]⟩) =
      ⟨buildTargetURL ⟨"http", "o", "/", ""⟩ "/x" "", copyHeaders [] [],
       .success ⟨200, [], [7]⟩,
       (List.range 2).map (fun i => (i + 1) * 100), 3⟩) :=
  ⟨C3_retry_attempts_and_backoff.1 ⟨"orders", "http://o", 1, 3⟩
      ⟨"http", "o", "/", ""⟩ ⟨"GET", "/x", "", []⟩ (fun _ => .connError) 3
      rfl (by decide),
   C3_retry_attempts_and_backoff.2 ⟨"orders", "http://o", 1, 3⟩
      ⟨"http", "o", "/", ""⟩ ⟨"GET", "/x", "", []⟩
      (fun i => if i < 2 then .fail .connError else .ok ⟨200, [], [7]⟩) 2
      ⟨200, [], [7]⟩ (by decide)
      (fun i hi => ⟨.connError, by simp [hi]⟩)
      (by decide)⟩

/-- C4 counterexample: the context deadline is installed once before the
retry loop, so the deadline under which retry attempt 1 runs is not that
attempt's start time plus the service timeout; with a 1s timeout,
zero-duration attempts and the 100ms first sleep they differ (1000ms
versus 1100ms). -/
theorem C4_fresh_deadline_counterexample :
    attemptDeadline 0 1 1 ≠
      freshAttemptDeadline (attemptStart 0 (fun _ => 0) 1) 1 := by
  decide

/-- C4 amended: every attempt runs under the single shared deadline set by
the one `context.WithTimeout` call made before the retry loop — the
service timeout measured from before the first attempt — and for every
retry attempt (i ≥ 1) that shared deadline is strictly earlier than a
fresh per-attempt deadline would be. -/
theorem C4_single_shared_deadline (t0 timeoutSec : Nat) (dur : Nat → Nat)
    (i : Nat) :
    attemptDeadline t0 timeoutSec i = ctxDeadline t0 timeoutSec ∧
    (1 ≤ i →
      attemptDeadline t0 timeoutSec i <
        freshAttemptDeadline (attemptStart t0 dur i) timeoutSec) := by
  refine ⟨rfl, fun h1 => ?_⟩
  have hsum : 100 ≤ ((List.range i).map (fun j => dur j + (j + 1) * 100)).sum := by
    obtain ⟨n, rfl⟩ : ∃ n, i = n + 1 := ⟨i - 1, by omega⟩
    rw [List.range_succ, List.map_append, List.sum_append]
    simp only [List.map_cons, List.map_nil, List.sum_cons, List.sum_nil]
    have : 100 ≤ dur n + (n + 1) * 100 := by
      have : 100 ≤ (n + 1) * 100 := by omega
      omega
    omega
  rw [attemptDeadline, ctxDeadline, freshAttemptDeadline, attemptStart]
  omega

/-- C4 witness: the shared-deadline facts at the counterexample's input. -/
theorem C4_witness :
    attemptDeadline 0 1 1 <
      freshAttemptDeadline (attemptStart 0 (fun _ => 0) 1) 1 :=
  (C4_single_shared_deadline 0 1 (fun _ => 0) 1).2 (by decide)

/-- C5 counterexample: for a base URL carrying the path prefix `/api`, the
target URL the code builds is not the base URL with the inbound path
appended — the prefix is lost. -/
theorem C5_append_counterexample :
    buildTargetURL ⟨"http", "backend.local", "/api", ""⟩ "/orders" "q=1" ≠
      specTargetURL ⟨"http", "backend.local", "/api", ""⟩ "/orders" "q=1" := by
  decide

/-- C5 amended: the executor's target URL keeps the base URL's scheme and
host, but its path is exactly the inbound request's path — the base URL's
own path is replaced, so a base path prefix is dropped — and its raw query
is the inbound query string; whenever the base URL has a nonempty path the
built URL differs from the spec's append-to-base reading. -/
theorem C5_path_replaces_base (svc : ServiceConfig) (base : URLComponents)
    (req : Request) (doCall : Nat → AttemptResult) :
    (executeRequest svc base req doCall).targetURL =
      { base with Path := req.Path, RawQuery := req.RawQuery } ∧
    (base.Path ≠ "" →
      buildTargetURL base req.Path req.RawQuery ≠
        specTargetURL base req.Path req.RawQuery) := by
  constructor
  · rw [executeRequest]
    rcases hr : retryLoop doCall svc.MaxRetry.toNat 0 with ⟨resp, err, sleeps, n⟩
    rcases err with _ | e
    · rcases resp with _ | rr
      · rfl
      · rfl
    · rfl
  · intro hbp heq
    have hpath : req.Path = base.Path ++ req.Path :=
      congrArg URLComponents.Path heq
    have hlen := congrArg String.length hpath
    rw [String.length_append] at hlen
    have hz : base.Path.length = 0 := by omega
    apply hbp
    cases hbase : base.Path with
    | mk data =>
      rw [hbase] at hz
      have hd : data = [] := List.length_eq_zero.mp hz
      rw [hd]

/-- C5 witness: a concrete call whose base URL has path `/api`: the target
URL's path is the inbound `/orders`, and it differs from the spec's
appended `/api/orders`. -/
theorem C5_witness :
    (executeRequest ⟨"orders", "http://backend.local/api", 1, 1⟩
        ⟨"http", "backend.local", "/api", ""⟩ ⟨"GET", "/orders", "q=1", []⟩
        (fun _ => .fail .connError)).targetURL =
      ⟨"http", "backend.local", "/orders", "q=1"⟩ ∧
    buildTargetURL ⟨"http", "backend.local", "/api", ""⟩ "/orders" "q=1" ≠
      specTargetURL ⟨"http", "backend.local", "/api", ""⟩ "/orders" "q=1" :=
  ⟨(C5_path_replaces_base ⟨"orders", "http://backend.local/api", 1, 1⟩
      ⟨"http", "backend.local", "/api", ""⟩ ⟨"GET", "/orders", "q=1", []⟩
      (fun _ => .fail .connError)).1,
   (C5_path_replaces_base ⟨"orders", "http://backend.local/api", 1, 1⟩
      ⟨"http", "backend.local", "/api", ""⟩ ⟨"GET", "/orders", "q=1", []⟩
      (fun _ => .fail .connError)).2 (by decide)⟩

/-- C6: whenever an HTTP response is received from the upstream — any
status code, including 4xx/5xx — the loop stops after that attempt with no
retry and no sleep, the response's status code, headers and fully-read
body are returned unchanged, and the breaker records the call as a
success (not a transport failure). -/
theorem C6_received_response_terminal
    (svc : ServiceConfig) (base : URLComponents) (req : Request)
    (doCall : Nat → AttemptResult) (r : HTTPResponse) (b : Breaker)
    (hmr : 1 ≤ svc.MaxRetry) (h0 : doCall 0 = .ok r) (hb : b.state ≠ .opened) :
    executeRequest svc base req doCall =
      ⟨buildTargetURL base req.Path req.RawQuery, copyHeaders req.Headers [],
       .success ⟨r.statusCode, r.headers, r.body⟩, [], 1⟩ ∧
    (cbExecute b
        (fun _ => (executeRequest svc base req doCall).result)).breaker =
      cbRecord b true ∧
    (cbExecute b
        (fun _ => (executeRequest svc base req doCall).result)).result =
      .ok ⟨r.statusCode, r.headers, r.body⟩ := by
  have hexec := executeRequest_first_success svc base req doCall 0 r
    (by omega) (fun i hi => absurd hi (Nat.not_lt_zero i)) h0
  have hres : (executeRequest svc base req doCall).result =
      .success ⟨r.statusCode, r.headers, r.body⟩ := by rw [hexec]
  refine ⟨hexec, ?_, ?_⟩
  · obtain ⟨_, hc2⟩ := cbExecute_not_opened b
      (fun _ => (executeRequest svc base req doCall).result) hb
    rw [hc2]
    simp only [hres, isExecSuccess]
  · exact cbExecute_result_of_success b _ ⟨r.statusCode, r.headers, r.body⟩
      hb hres

/-- C6 witness: a first-attempt response with status 500 is returned as-is
after one attempt with no sleeps, and a Closed breaker records it as a
success. -/
theorem C6_witness :
    executeRequest ⟨"s", "http://u", 1, 2⟩ ⟨"http", "u", "", ""⟩
        ⟨"GET", "/", "", []⟩ (fun _ => .ok ⟨500, [("X-A", ["v"])], [1, 2]⟩) =
      ⟨buildTargetURL ⟨"http", "u", "", ""⟩ "/" "", copyHeaders [] [],
       .success ⟨500, [("X-A", ["v"])], [1, 2]⟩, [], 1⟩ ∧
    (cbExecute ⟨.closed, ⟨0, 0⟩⟩ (fun _ =>
        (executeRequest ⟨"s", "http://u", 1, 2⟩ ⟨"http", "u", "", ""⟩
          ⟨"GET", "/", "", []⟩
          (fun _ => .ok ⟨500, [("X-A", ["v"])], [1, 2]⟩)).result)).breaker =
      cbRecord ⟨.closed, ⟨0, 0⟩⟩ true ∧
    (cbExecute ⟨.closed, ⟨0, 0⟩⟩ (fun _ =>
        (executeRequest ⟨"s", "http://u", 1, 2⟩ ⟨"http", "u", "", ""⟩
          ⟨"GET", "/", "", []⟩
          (fun _ => .ok ⟨500, [("X-A", ["v"])], [1, 2]⟩)).result)).result =
      .ok ⟨500, [("X-A", ["v"])], [1, 2]⟩ :=
  C6_received_response_terminal ⟨"s", "http://u", 1, 2⟩ ⟨"http", "u", "", ""⟩
    ⟨"GET", "/", "", []⟩ (fun _ => .ok ⟨500, [("X-A", ["v"])], [1, 2]⟩)
    ⟨500, [("X-A", ["v"])], [1, 2]⟩ ⟨.closed, ⟨0, 0⟩⟩ (by decide) rfl
    (by decide)

/-- C7: the header copy, into an initially empty destination, omits
exactly the deny-listed keys Host, Connection, Content-Length,
Transfer-Encoding and Upgrade under case-insensitive matching, and copies
every other key with all of its values in order. -/
theorem C7_header_copy (src : Header) (k : String)
    (hnd : (keysOf src).Nodup) :
    (skipHeaders.contains (lowerString k) = true →
      mapLookup (copyHeaders src []) k = none) ∧
    (skipHeaders.contains (lowerString k) = false →
      hValues (copyHeaders src []) k = hValues src k) := by
  constructor
  · intro hskip
    rw [mapLookup_eq_none_iff]
    intro hmem
    rcases keysOf_copyHeaders src k [] hmem with h | ⟨hns, _⟩
    · simp [keysOf] at h
    · rw [hskip] at hns
      exact absurd hns (by decide)
  · intro hns
    have hcv := hValues_copyHeaders src k hnd []
    rw [if_neg (by rw [hns]; exact Bool.false_ne_true)] at hcv
    simpa using hcv

/-- C7 witness: with a concrete inbound header map, `Connection` is
omitted from the copy while the multi-valued `X-Req-Id` survives with both
values. -/
theorem C7_witness :
    mapLookup (copyHeaders [("Host", ["a"]), ("Connection", ["keep-alive"]),
        ("X-Req-Id", ["1", "2"]), ("Accept", ["text/html"])] [])
      "Connection" = none ∧
    hValues (copyHeaders [("Host", ["a"]), ("Connection", ["keep-alive"]),
        ("X-Req-Id", ["1", "2"]), ("Accept", ["text/html"])] [])
      "X-Req-Id" = ["1", "2"] := by
  constructor
  · exact (C7_header_copy [("Host", ["a"]), ("Connection", ["keep-alive"]),
      ("X-Req-Id", ["1", "2"]), ("Accept", ["text/html"])] "Connection"
      (by decide)).1 (by decide)
  · have h := (C7_header_copy [("Host", ["a"]), ("Connection", ["keep-alive"]),
      ("X-Req-Id", ["1", "2"]), ("Accept", ["text/html"])] "X-Req-Id"
      (by decide)).2 (by decide)
    rw [h]
    decide

/-- C8 counterexample: with the caller's context cancelled from the start
(every `Do` fails immediately with the cancellation error) and
`MaxRetry = 3`, the loop does not stop after the in-flight attempt: it
performs further attempts and inter-attempt sleeps, contradicting the
claim that no further retries or sleeps are scheduled. -/
theorem C8_cancellation_counterexample :
    ¬((executeRequest ⟨"orders", "http://o", 1, 3⟩ ⟨"http", "o", "", ""⟩
          ⟨"GET", "/", "", []⟩ (fun _ => .fail .cancelled)).attempts ≤ 1 ∧
      (executeRequest ⟨"orders", "http://o", 1, 3⟩ ⟨"http", "o", "", ""⟩
          ⟨"GET", "/", "", []⟩ (fun _ => .fail .cancelled)).sleeps = []) := by
  decide

/-- C8 amended: the retry loop has no cancellation check: when every
attempt fails with the cancellation error, the executor still performs all
`MaxRetry = N` attempts and all N-1 inter-attempt sleeps, and returns the
same all-retry-attempts-failed error as any other transport failure — the
cancellation is visible only as the wrapped transport error, not as a
distinct gateway failure. -/
theorem C8_cancellation_still_retries (svc : ServiceConfig)
    (base : URLComponents) (req : Request) (N : Nat)
    (hN : svc.MaxRetry = (N : Int)) (h1 : 1 ≤ N) :
    executeRequest svc base req (fun _ => .fail .cancelled) =
      ⟨buildTargetURL base req.Path req.RawQuery, copyHeaders req.Headers [],
       .allRetriesFailed .cancelled,
       (List.range (N - 1)).map (fun i => (i + 1) * 100), N⟩ := by
  have h := executeRequest_all_fail svc base req (fun _ => .cancelled) N hN h1
  rw [backoffList_from_zero] at h
  exact h

/-- C8 witness: the amended behaviour at `MaxRetry = 3`. -/
theorem C8_witness :
    executeRequest ⟨"orders", "http://o", 1, 3⟩ ⟨"http", "o", "", ""⟩
        ⟨"GET", "/", "", []⟩ (fun _ => .fail .cancelled) =
      ⟨buildTargetURL ⟨"http", "o", "", ""⟩ "/" "", copyHeaders [] [],
       .allRetriesFailed .cancelled,
       (List.range 2).map (fun i => (i + 1) * 100), 3⟩ :=
  C8_cancellation_still_retries ⟨"orders", "http://o", 1, 3⟩
    ⟨"http", "o", "", ""⟩ ⟨"GET", "/", "", []⟩ 3 rfl (by decide)

/-- C9: after `NewProxy`, the service registry and the breaker map have
identical key sets (a key resolves in one iff it resolves in the other),
and `RouteRequest` never changes the registry and never adds, removes or
replaces a key of the breaker map (it only updates the value at an
existing key). -/
theorem C9_key_sets_invariant (ss : List ServiceConfig) (k : String)
    (p : Proxy) (parse : String → URLComponents) (req : Request)
    (doCall : Nat → AttemptResult) (name : String) :
    (mapLookup (NewProxy ss).services k).isSome =
      (mapLookup (NewProxy ss).circuitBreakers k).isSome ∧
    (RouteRequest p parse req doCall name).proxy.services = p.services ∧
    keysOf (RouteRequest p parse req doCall name).proxy.circuitBreakers =
      keysOf p.circuitBreakers := by
  refine ⟨?_, ?_, ?_⟩
  · exact newProxyFold_lookup_isSome ss ⟨[], []⟩ (fun _ => rfl) k
  · rw [RouteRequest]
    cases hs : mapLookup p.services name with
    | none => rfl
    | some svc =>
      cases hb : mapLookup p.circuitBreakers name with
      | none => rfl
      | some cb => rfl
  · rw [RouteRequest]
    cases hs : mapLookup p.services name with
    | none => rfl
    | some svc =>
      cases hb : mapLookup p.circuitBreakers name with
      | none => rfl
      | some cb =>
        dsimp only
        exact keysOf_mapInsert_of_mem p.circuitBreakers name _ cb hb

/-- C10: the executor is total for `MaxRetry ≥ 1` — it returns a response
or an error, never the nil dereference — but with `MaxRetry = 0` the loop
body never runs, the retained error stays nil, and `resp.Body.Close()`
dereferences the nil response: the nil-dereference branch is reachable. -/
theorem C10_nil_deref_guard :
    (∀ (svc : ServiceConfig) (base : URLComponents) (req : Request)
        (doCall : Nat → AttemptResult), 1 ≤ svc.MaxRetry →
      (executeRequest svc base req doCall).result ≠ .nilDeref) ∧
    (executeRequest ⟨"svc", "http://u", 30, 0⟩ ⟨"http", "u", "", ""⟩
        ⟨"GET", "/", "", []⟩ (fun _ => .fail .connError)).result =
      .nilDeref :=
  ⟨fun svc base req doCall hmr =>
      executeRequest_not_nilDeref svc base req doCall hmr,
   by decide⟩

/-- C10 witness: with `MaxRetry = 2` the nil dereference is impossible. -/
theorem C10_witness :
    (executeRequest ⟨"svc", "http://u", 30, 2⟩ ⟨"http", "u", "", ""⟩
        ⟨"GET", "/", "", []⟩ (fun _ => .fail .connError)).result ≠
      .nilDeref :=
  C10_nil_deref_guard.1 ⟨"svc", "http://u", 30, 2⟩ ⟨"http", "u", "", ""⟩
    ⟨"GET", "/", "", []⟩ (fun _ => .fail .connError) (by decide)

end Gateway
